import Mathlib

/-!
Shallow embedding of the `mget_rust` downloader (`src/main.rs`) and proofs
about the claims of its specification.

The program is a multi-threaded range downloader: it probes the resource
size with a HEAD request (`get_file_size`), splits `[0, size)` into one
byte range per thread (the planning loop in `download`, embedded here as
`segPos` / `segLength`), spawns one fetcher per range (`download_part` /
`download_part_inner`) that streams the body in 8 KiB blocks over an mpsc
channel, and drains the channel in a single consumer loop (embedded as
`recvLoop`) that performs the positioned writes and decides the overall
outcome.

Machine-integer conventions: Rust `u64` values are modelled as `Nat`.  The
one u64 operation in the planner that can overflow, `idx as u64 * file_size`,
is modelled with an explicit `% 2^64`.  `file_size - pos` is modelled by
truncated `Nat` subtraction; for the arguments the program actually produces
the subtraction never underflows (this is proved where a claim needs it).
External effects (HTTP responses, filesystem probes, channel disconnection)
are inputs of the model; everything the Rust code computes from them is
embedded faithfully.
-/

namespace Mget

/-- The `std::io::ErrorKind` values used by the source. -/
inductive ErrorKind where
  | connectionReset
  | invalidData
  | invalidInput
deriving Repr, DecidableEq

/-- A `std::io::Error` as built by the source: a kind plus a message. -/
structure IOError where
  kind : ErrorKind
  msg : String
deriving Repr, DecidableEq

/-- The `TaskResult` enum of `main.rs` (channel events).  Byte buffers are
modelled as lists of byte values. -/
inductive TaskResult where
  | downloading (idx : Nat) (pos : Nat) (data : List Nat)
  | failed (idx : Nat) (err : IOError)
  | done (idx : Nat)
deriving Repr, DecidableEq

/-- The modulus `2^64` of Rust `u64` arithmetic. -/
def U64MOD : Nat := 2 ^ 64

/-- Start offset of segment `idx`, from the planning loop of `download`:
`let pos = idx as u64 * file_size / threads as u64;` — the multiplication
is a wrapping u64 multiplication. -/
def segPos (fileSize threads idx : Nat) : Nat :=
  (idx * fileSize % U64MOD) / threads

/-- Length of segment `idx`, from the planning loop of `download`:
the last segment gets `file_size - pos`, every other one `file_size / threads`. -/
def segLength (fileSize threads idx : Nat) : Nat :=
  if idx = threads - 1 then fileSize - segPos fileSize threads idx
  else fileSize / threads

/-- The segment list `(pos, length)` planned by `download` for the spawned
fetchers. -/
def plan (fileSize threads : Nat) : List (Nat × Nat) :=
  (List.range threads).map fun i => (segPos fileSize threads i, segLength fileSize threads i)

/-- The progress percentage computed in the consumer loop of `download`:
`let percent = 100 * (downloaded / file_size);` (note the parenthesised
integer division). -/
def percentOf (downloaded fileSize : Nat) : Nat :=
  100 * (downloaded / fileSize)

/-- The mutable state of the consumer loop of `download`:
`done_count` and `downloaded`. -/
structure LoopState where
  doneCount : Nat
  downloaded : Nat
deriving Repr, DecidableEq

/-- Terminal outcome of the consumer loop of `download`. -/
inductive Outcome where
  | succeeded
  | failed (idx : Nat) (err : IOError)
  | channelClosed (msg : String)
deriving Repr, DecidableEq

/-- Result of running the consumer loop: the outcome, the final counter
state, and the list of progress percentages printed along the way (empty
unless verbose). -/
structure LoopOut where
  outcome : Outcome
  finalState : LoopState
  displayed : List Nat
deriving Repr, DecidableEq

/-- The consumer loop of `download` (lines 175–207 of `main.rs`), run on the
sequence of events received from the channel.  The list ending corresponds
to `rx.recv()` returning `Err` (all senders dropped).  `Downloading` events
accumulate `downloaded` (the positioned write itself has no bearing on the
claim counters); in verbose mode each one records the displayed
percentage.  `Failed` returns immediately with the segment error; the
`threads`-th `Done` breaks the loop with success. -/
def recvLoop (threads fileSize : Nat) (verbose : Bool) :
    LoopState → List TaskResult → LoopOut
  | st, [] => ⟨.channelClosed "receiving on an empty and disconnected channel", st, []⟩
  | st, .downloading _ _ data :: rest =>
      let d := st.downloaded + data.length
      let out := recvLoop threads fileSize verbose ⟨st.doneCount, d⟩ rest
      ⟨out.outcome, out.finalState,
        if verbose then percentOf d fileSize :: out.displayed else out.displayed⟩
  | st, .failed idx e :: _ => ⟨.failed idx e, st, []⟩
  | st, .done _ :: rest =>
      let dc := st.doneCount + 1
      if dc = threads then ⟨.succeeded, ⟨dc, st.downloaded⟩, []⟩
      else recvLoop threads fileSize verbose ⟨dc, st.downloaded⟩ rest

/-- The 8 KiB read-buffer size of `download_part_inner`. -/
def CHUNK_LIMIT : Nat := 8 * 1024

/-- Model of the HTTP GET response consumed by `download_part_inner`:
the status, the textual status (used via `format!` for the failure reason),
the `response.text()` body used for the failure reason when available, the
successive successful reads of the body (`read` results with `n > 0`, plus
possibly a final empty read meaning EOF), and an optional read error that
ends the stream instead of EOF. -/
structure GetResponse where
  statusOk : Bool
  statusText : String
  bodyText : Option String
  body : List (List Nat)
  readErr : Option IOError
deriving Repr, DecidableEq

/-- Whether the `sent`-th channel send fails: the model closes the channel
from ordinal `k` on when `chanFail = some k`. -/
def chanFailsAt (chanFail : Option Nat) (sent : Nat) : Bool :=
  match chanFail with
  | none => false
  | some k => k ≤ sent

/-- The body-reading loop of `download_part_inner` (lines 88–103): read a
block; `n = 0` returns `Ok pos`; otherwise send a `Downloading` event (a
failed send aborts with the "Failed to send download event" error) and
advance `pos` by the block length.  Returns the events sent and the
function result. -/
def readLoop (idx : Nat) (chanFail : Option Nat) :
    Nat → Nat → List (List Nat) → Option IOError → List TaskResult × Except IOError Nat
  | _, pos, [], none => ([], .ok pos)
  | _, _, [], some e => ([], .error e)
  | sent, pos, b :: bs, re =>
      if b.length = 0 then ([], .ok pos)
      else if chanFailsAt chanFail sent then
        ([], .error ⟨.invalidData, "Failed to send download event"⟩)
      else
        let out := readLoop idx chanFail (sent + 1) (pos + b.length) bs re
        (.downloading idx pos b :: out.1, out.2)

/-- Embedding of `download_part_inner` (lines 64–104): build the ranged GET (the request
itself is external; its result is the input), fail with a
`ConnectionReset` error if the request cannot complete, fail with an
`InvalidData` error carrying the response text (or the status text) if the
status is not a success, then run the read loop. -/
def download_part_inner (idx pos : Nat) (chanFail : Option Nat)
    (resp : Except String GetResponse) : List TaskResult × Except IOError Nat :=
  match resp with
  | .error e => ([], .error ⟨.connectionReset, e⟩)
  | .ok r =>
      if r.statusOk = false then
        ([], .error ⟨.invalidData, r.bodyText.getD r.statusText⟩)
      else
        readLoop idx chanFail 0 pos r.body r.readErr

/-- Embedding of `download_part` (lines 51–62): run the inner fetch, then send exactly
one terminal event — `Done` on success, `Failed e` on error — and return
the final position (or 0 on error).  Returns all events the fetcher sent
on its channel, in order. -/
def download_part (idx pos : Nat) (chanFail : Option Nat)
    (resp : Except String GetResponse) : List TaskResult × Nat :=
  match download_part_inner idx pos chanFail resp with
  | (evs, .ok p) => (evs ++ [.done idx], p)
  | (evs, .error e) => (evs ++ [.failed idx e], 0)

/-- Model of the HEAD response consumed by `get_file_size`: status, status
text, and the raw `content-length` header value when present. -/
structure HeadResponse where
  statusOk : Bool
  statusText : String
  contentLength : Option String
deriving Repr, DecidableEq

/-- The digit-accumulation part of the Rust `str::parse::<u64>`. -/
def parseDigits : List Char → Nat → Option Nat
  | [], acc => some acc
  | c :: cs, acc =>
      if c.isDigit then parseDigits cs (acc * 10 + (c.toNat - 48)) else none

/-- Embedding of the Rust `str::parse::<u64>().ok()`: an optional leading `+`, then one or
more ASCII digits, rejecting the empty string and values ≥ 2^64. -/
def parseU64 (s : String) : Option Nat :=
  let cs := match s.toList with
    | '+' :: rest => rest
    | cs => cs
  match cs with
  | [] => none
  | _ => (parseDigits cs 0).bind fun n => if n < U64MOD then some n else none

/-- Embedding of `get_file_size` (lines 30–49): a failed request becomes a
`ConnectionReset` error; a non-success status becomes an `InvalidData`
error mentioning the status; otherwise the `content-length` header is
parsed as a u64, a missing or unparseable header becoming the
`InvalidData` parse error. -/
def get_file_size (resp : Except String HeadResponse) : Except IOError Nat :=
  match resp with
  | .error e => .error ⟨.connectionReset, e⟩
  | .ok r =>
      if r.statusOk = false then
        .error ⟨.invalidData, "Failed to get content-length: " ++ r.statusText⟩
      else
        match r.contentLength.bind parseU64 with
        | some n => .ok n
        | none => .error ⟨.invalidData, "Failed to parse content-length"⟩

/-- The spec name `EmptyResourceError`: the error `download` builds when the
probed size is 0 (line 125 of `main.rs`). -/
def EmptyResourceError : IOError := ⟨.invalidData, "File size is 0"⟩

/-- Externally visible actions of `download`, recorded in program order. -/
inductive DlAction where
  | probeSize
  | spawnFetcher (idx : Nat)
  | openOutput
deriving Repr, DecidableEq

/-- The external world as seen by one run of `download`: the outcome of
output-filename resolution (lines 112–122, `Url::parse` errors already
mapped to `InvalidInput`), the outcome of the size probe, the filename
after the collision-rename loop (driven by external `fs::metadata`), the
outcome of opening the output file, the event sequence received from the
channel, and the verbosity flag. -/
structure DlEnv where
  resolvedName : Except IOError String
  probe : Except IOError Nat
  renamedName : String
  openResult : Except IOError Unit
  events : List TaskResult
  verbose : Bool

/-- Embedding of `download` (lines 106–220): resolve the filename, probe the size
(failing with `EmptyResourceError` on size 0), rename on collision, coerce
`threads` to at least 1, spawn one fetcher per segment, open the output
file (mapping open errors to `InvalidInput`), then drain the channel with
`recvLoop`; success returns the filename.  The second component records
the externally visible actions in program order. -/
def download (threads : Nat) (env : DlEnv) : Except IOError String × List DlAction :=
  match env.resolvedName with
  | .error e => (.error e, [])
  | .ok _ =>
      match env.probe with
      | .error e => (.error e, [.probeSize])
      | .ok n =>
          if n = 0 then (.error ⟨.invalidData, "File size is 0"⟩, [.probeSize])
          else
            let t := max threads 1
            let acts := DlAction.probeSize :: (List.range t).map DlAction.spawnFetcher
            match env.openResult with
            | .error e => (.error ⟨.invalidInput, e.msg⟩, acts)
            | .ok _ =>
                let out := recvLoop t n env.verbose ⟨0, 0⟩ env.events
                match out.outcome with
                | .succeeded => (.ok env.renamedName, acts ++ [.openOutput])
                | .failed _ e => (.error e, acts ++ [.openOutput])
                | .channelClosed msg =>
                    (.error ⟨.invalidData, msg⟩, acts ++ [.openOutput])

/-- An event is terminal when it is `Done` or `Failed`. -/
def isTerminal : TaskResult → Bool
  | .downloading _ _ _ => false
  | .failed _ _ => true
  | .done _ => true

/-- An event is a `Done` event. -/
def isDone : TaskResult → Bool
  | .done _ => true
  | _ => false

/-- An event is a `Failed` event. -/
def isFailed : TaskResult → Bool
  | .failed _ _ => true
  | _ => false

/-- Number of `Done` events in a list. -/
def countDone (l : List TaskResult) : Nat :=
  l.countP isDone

/-- The stream of `Downloading` events a fetcher emits for the given body
blocks starting at `pos`: one event per block, each carrying the running
absolute offset. -/
def chunkStream (idx : Nat) : Nat → List (List Nat) → List TaskResult
  | _, [] => []
  | pos, b :: bs => .downloading idx pos b :: chunkStream idx (pos + b.length) bs

/-- The event sequence of a complete run for `file_size = 5`, `threads = 3`
in which every fetcher is started on its planned range and receives from
the server exactly as many bytes as its planned length (1, 1 and 2 bytes),
delivered without interleaving. -/
def runEvents53 : List TaskResult :=
  (download_part 0 (segPos 5 3 0) none (.ok ⟨true, "OK", none, [[9]], none⟩)).1 ++
  (download_part 1 (segPos 5 3 1) none (.ok ⟨true, "OK", none, [[9]], none⟩)).1 ++
  (download_part 2 (segPos 5 3 2) none (.ok ⟨true, "OK", none, [[9, 9]], none⟩)).1

/-!  Theorems.  -/

/-- C1: the claim that for every `total_size > 0` and `threads ≥ 1` the
planned segments are sorted, pairwise non-overlapping, contiguous and have
lengths summing to `total_size` fails on the code: for `total_size = 5`,
`threads = 3` the plan is `[(0,1), (1,1), (3,2)]`, the lengths sum to 4,
there is a one-byte gap before segment 2, and offset 2 lies in no
segment. -/
theorem c1_planner_gap :
    plan 5 3 = [(0, 1), (1, 1), (3, 2)] ∧
    ((List.range 3).map fun i => segLength 5 3 i).sum = 4 ∧
    ((List.range 3).map fun i => segLength 5 3 i).sum ≠ 5 ∧
    segPos 5 3 1 + segLength 5 3 1 < segPos 5 3 2 ∧
    (∀ i, i < 3 → ¬ (segPos 5 3 i ≤ 2 ∧ 2 < segPos 5 3 i + segLength 5 3 i)) := by
  decide

/-- C2, counterexample: the start-offset formula
`start = floor(i * total_size / threads)` fails for inputs where the u64
multiplication `idx as u64 * file_size` wraps: at `total_size = 2^63`,
`threads = 3`, segment 2 the code computes start offset 0, not
`floor(2 * 2^63 / 3)`. -/
theorem c2_overflow_cex :
    segPos (2 ^ 63) 3 2 = 0 ∧ segPos (2 ^ 63) 3 2 ≠ 2 * 2 ^ 63 / 3 := by
  constructor
  · decide
  · decide

/-- C2, amended: when the multiplication does not overflow, i.e.
`(threads - 1) * total_size < 2^64`, segment `i` (for `i < threads`) starts
at `floor(i * total_size / threads)`, every non-last segment has length
`floor(total_size / threads)`, and the last segment has length
`total_size - its start offset`. -/
theorem c2_segment_formulas (s t i : Nat) (hi : i < t) (hov : (t - 1) * s < U64MOD) :
    segPos s t i = i * s / t ∧
    (i < t - 1 → segLength s t i = s / t) ∧
    (i = t - 1 → segLength s t i = s - segPos s t i) := by
  have h1 : i * s < U64MOD :=
    lt_of_le_of_lt (Nat.mul_le_mul_right s (by omega)) hov
  refine ⟨?_, ?_, ?_⟩
  · unfold segPos
    rw [Nat.mod_eq_of_lt h1]
  · intro hlt
    unfold segLength
    rw [if_neg (by omega)]
  · intro heq
    unfold segLength
    rw [if_pos heq]

/-- Witness for `c2_segment_formulas` at `total_size = 10`, `threads = 3`,
segment 1. -/
theorem c2_segment_formulas_witness :
    segPos 10 3 1 = 1 * 10 / 3 ∧
    (1 < 3 - 1 → segLength 10 3 1 = 10 / 3) ∧
    (1 = 3 - 1 → segLength 10 3 1 = 10 - segPos 10 3 1) :=
  c2_segment_formulas 10 3 1 (by decide) (by decide)

/-- C10, counterexample: it is not the case that every planned segment has
length at least 1 whenever `total_size ≥ 1` and `threads ≥ 1`: for
`total_size = 1`, `threads = 2` segment 0 has length 0 and start offset 0,
so the u64 expression `pos + length - 1` for its range header underflows
(`pos + length < 1`). -/
theorem c10_zero_length_cex :
    ¬ (1 ≤ segLength 1 2 0) ∧ segPos 1 2 0 + segLength 1 2 0 < 1 := by
  decide

/-- C10, amended: when `1 ≤ threads ≤ total_size`, every planned segment
has length at least 1, and `start_offset + length ≥ 1`, so the u64
subtraction `pos + length - 1` building the inclusive range-header end
offset never underflows. -/
theorem c10_length_positive (s t i : Nat) (ht : 1 ≤ t) (hts : t ≤ s) (hi : i < t) :
    1 ≤ segLength s t i ∧ 1 ≤ segPos s t i + segLength s t i := by
  have hs : 0 < s := lt_of_lt_of_le ht hts
  have key : 1 ≤ segLength s t i := by
    unfold segLength
    by_cases h : i = t - 1
    · rw [if_pos h]
      have hp : segPos s t i < s := by
        unfold segPos
        have h1 : i * s % U64MOD ≤ i * s := Nat.mod_le _ _
        have h2 : i * s < s * t := by
          rw [mul_comm s t]
          exact (Nat.mul_lt_mul_right hs).mpr hi
        calc i * s % U64MOD / t ≤ i * s / t := Nat.div_le_div_right h1
          _ < s := (Nat.div_lt_iff_lt_mul ht).mpr h2
      omega
    · rw [if_neg h]
      exact (Nat.one_le_div_iff ht).mpr hts
  exact ⟨key, le_trans key (Nat.le_add_left _ _)⟩

/-- Witness for `c10_length_positive` at `total_size = 5`, `threads = 3`,
segment 2. -/
theorem c10_length_positive_witness :
    1 ≤ segLength 5 3 2 ∧ 1 ≤ segPos 5 3 2 + segLength 5 3 2 :=
  c10_length_positive 5 3 2 (by decide) (by decide) (by decide)

/-- C7: the claim that `bytes_written` equals `total_size` precisely when
the run transitions to `Succeeded` fails on the code: for `total_size = 5`,
`threads = 3`, a run in which every fetcher delivers exactly its planned
segment (bodies of 1, 1 and 2 bytes, matching `segLength`) ends in
`Succeeded` with `downloaded = 4`, never reaching 5 — a consequence of the
gap in the planned segments. -/
theorem c7_success_short_of_total :
    (segLength 5 3 0 = 1 ∧ segLength 5 3 1 = 1 ∧ segLength 5 3 2 = 2) ∧
    (recvLoop 3 5 false ⟨0, 0⟩ runEvents53).outcome = .succeeded ∧
    (recvLoop 3 5 false ⟨0, 0⟩ runEvents53).finalState.downloaded = 4 ∧
    (recvLoop 3 5 false ⟨0, 0⟩ runEvents53).finalState.downloaded ≠ 5 := by
  decide

/-- C8, counterexample: after a 1-byte chunk of a 2-byte resource the code
displays `100 * (1 / 2) = 0`, not the truncated ratio
`floor(100 * 1 / 2) = 50` the claim states. -/
theorem c8_percent_cex :
    (recvLoop 1 2 true ⟨0, 0⟩ [.downloading 0 0 [7]]).displayed = [percentOf 1 2] ∧
    percentOf 1 2 = 0 ∧ 100 * 1 / 2 = 50 ∧ percentOf 1 2 ≠ 100 * 1 / 2 := by
  decide

/-- C8, amended: the displayed percentage is
`100 * (bytes_written / total_size)` — one hundred times the integer
quotient — which is 0 whenever `bytes_written < total_size` and 100 when
`bytes_written = total_size > 0`; consequently every percentage the
consumer loop displays is a multiple of 100. -/
theorem c8_percent_steps :
    (∀ d s, percentOf d s = 100 * (d / s)) ∧
    (∀ d s, d < s → percentOf d s = 0) ∧
    (∀ s, 0 < s → percentOf s s = 100) ∧
    (∀ t fs vb st evs, ∀ x ∈ (recvLoop t fs vb st evs).displayed, x % 100 = 0) := by
  refine ⟨fun d s => rfl, fun d s h => ?_, fun s hs => ?_, fun t fs vb st evs => ?_⟩
  · unfold percentOf
    rw [Nat.div_eq_of_lt h, Nat.mul_zero]
  · unfold percentOf
    rw [Nat.div_self hs]
  · induction evs generalizing st with
    | nil =>
      intro x hx
      simp [recvLoop] at hx
    | cons ev rest ih =>
      intro x hx
      cases ev with
      | downloading i p data =>
        simp only [recvLoop] at hx
        by_cases hv : vb
        · rw [if_pos hv] at hx
          rcases List.mem_cons.mp hx with h | h
          · subst h
            exact Nat.mul_mod_right 100 _
          · exact ih _ x h
        · rw [if_neg hv] at hx
          exact ih _ x hx
      | failed i e =>
        simp [recvLoop] at hx
      | done i =>
        simp only [recvLoop] at hx
        by_cases hd : st.doneCount + 1 = t
        · rw [if_pos hd] at hx
          simp at hx
        · rw [if_neg hd] at hx
          exact ih _ x hx

/-- Witness for `c8_percent_steps`: three bytes of a seven-byte resource
display as 0 percent. -/
theorem c8_percent_steps_witness : percentOf 3 7 = 0 :=
  c8_percent_steps.2.1 3 7 (by decide)

/-- C4: when the probe reports size 0, `download` fails with
`EmptyResourceError` and its action trace is just the probe — in
particular the output file is never opened (and no fetcher is spawned):
the zero check at line 125 precedes the `OpenOptions` call at line 169. -/
theorem c4_zero_size (threads : Nat) (env : DlEnv) (name : String)
    (hres : env.resolvedName = .ok name) (hprobe : env.probe = .ok 0) :
    (download threads env).1 = .error EmptyResourceError ∧
    (download threads env).2 = [.probeSize] ∧
    DlAction.openOutput ∉ (download threads env).2 := by
  have hd : download threads env = (.error ⟨.invalidData, "File size is 0"⟩, [.probeSize]) := by
    unfold download
    rw [hres, hprobe]
    simp
  rw [hd]
  exact ⟨rfl, rfl, by decide⟩

/-- Witness for `c4_zero_size` on a concrete environment with a zero-size
probe result. -/
theorem c4_zero_size_witness :
    (download 3 ⟨.ok "f", .ok 0, "f", .ok (), [], false⟩).1 = .error EmptyResourceError ∧
    (download 3 ⟨.ok "f", .ok 0, "f", .ok (), [], false⟩).2 = [.probeSize] ∧
    DlAction.openOutput ∉ (download 3 ⟨.ok "f", .ok 0, "f", .ok (), [], false⟩).2 :=
  c4_zero_size 3 ⟨.ok "f", .ok 0, "f", .ok (), [], false⟩ "f" rfl rfl


/-- Helper: characterisation of when the consumer loop succeeds, for an
arbitrary starting done-count below `threads`. -/
lemma recvLoop_succ_iff (t fs : Nat) (vb : Bool) :
    ∀ (evs : List TaskResult) (dc dl : Nat), dc < t →
      ((recvLoop t fs vb ⟨dc, dl⟩ evs).outcome = .succeeded ↔
        ∃ p q, evs = p ++ q ∧ dc + countDone p = t ∧ ∀ e ∈ p, isFailed e = false) := by
  intro evs
  induction evs with
  | nil =>
    intro dc dl hdc
    constructor
    · intro h
      simp [recvLoop] at h
    · rintro ⟨p, q, hpq, hcount, -⟩
      have hp : p = [] := (List.append_eq_nil.mp hpq.symm).1
      subst hp
      simp [countDone] at hcount
      omega
  | cons ev rest ih =>
    intro dc dl hdc
    cases ev with
    | downloading i p0 data =>
      have houtcome : (recvLoop t fs vb ⟨dc, dl⟩ (.downloading i p0 data :: rest)).outcome
          = (recvLoop t fs vb ⟨dc, dl + data.length⟩ rest).outcome := by
        simp [recvLoop]
      rw [houtcome, ih dc (dl + data.length) hdc]
      constructor
      · rintro ⟨p, q, hpq, hc, hf⟩
        refine ⟨.downloading i p0 data :: p, q, by rw [hpq, List.cons_append], ?_, ?_⟩
        · simpa [countDone, isDone] using hc
        · intro e he
          rcases List.mem_cons.mp he with h | h
          · subst h; rfl
          · exact hf e h
      · rintro ⟨p, q, hpq, hc, hf⟩
        cases p with
        | nil =>
          simp [countDone] at hc
          omega
        | cons a p2 =>
          rw [List.cons_append] at hpq
          injection hpq with ha hrest
          refine ⟨p2, q, hrest, ?_, fun e he => hf e (List.mem_cons_of_mem _ he)⟩
          have hcd : countDone (a :: p2) = countDone p2 := by
            rw [← ha]
            simp [countDone, isDone]
          omega
    | failed i er =>
      constructor
      · intro h
        simp [recvLoop] at h
      · rintro ⟨p, q, hpq, hc, hf⟩
        cases p with
        | nil =>
          simp [countDone] at hc
          omega
        | cons a p2 =>
          rw [List.cons_append] at hpq
          injection hpq with ha hrest
          have hfa := hf a (List.mem_cons_self a p2)
          rw [← ha] at hfa
          simp [isFailed] at hfa
    | done i =>
      by_cases hd : dc + 1 = t
      · have houtcome : (recvLoop t fs vb ⟨dc, dl⟩ (.done i :: rest)).outcome = .succeeded := by
          simp [recvLoop, hd]
        rw [houtcome]
        constructor
        · intro _
          refine ⟨[.done i], rest, rfl, ?_, ?_⟩
          · simp [countDone, isDone]
            omega
          · intro e he
            simp at he
            subst he
            rfl
        · intro _
          rfl
      · have hdc1 : dc + 1 < t := by omega
        have houtcome : (recvLoop t fs vb ⟨dc, dl⟩ (.done i :: rest)).outcome
            = (recvLoop t fs vb ⟨dc + 1, dl⟩ rest).outcome := by
          simp [recvLoop, hd]
        rw [houtcome, ih (dc + 1) dl hdc1]
        constructor
        · rintro ⟨p, q, hpq, hc, hf⟩
          refine ⟨.done i :: p, q, by rw [hpq, List.cons_append], ?_, ?_⟩
          · have : countDone (TaskResult.done i :: p) = countDone p + 1 := by
              simp [countDone, isDone]
            omega
          · intro e he
            rcases List.mem_cons.mp he with h | h
            · subst h; rfl
            · exact hf e h
        · rintro ⟨p, q, hpq, hc, hf⟩
          cases p with
          | nil =>
            simp [countDone] at hc
            omega
          | cons a p2 =>
            rw [List.cons_append] at hpq
            injection hpq with ha hrest
            refine ⟨p2, q, hrest, ?_, fun e he => hf e (List.mem_cons_of_mem _ he)⟩
            have hcd : countDone (a :: p2) = countDone p2 + 1 := by
              rw [← ha]
              simp [countDone, isDone]
            omega


/-- Helper: if the events start with a failure-free prefix holding fewer
`Done` events than remain needed, followed by a `Failed` event, the loop
returns that failure. -/
lemma recvLoop_first_fail (t fs : Nat) (vb : Bool) :
    ∀ (p : List TaskResult) (dc dl idx : Nat) (er : IOError) (q : List TaskResult),
      (∀ e ∈ p, isFailed e = false) → dc + countDone p < t →
      (recvLoop t fs vb ⟨dc, dl⟩ (p ++ .failed idx er :: q)).outcome = .failed idx er := by
  intro p
  induction p with
  | nil =>
    intro dc dl idx er q _ _
    simp [recvLoop]
  | cons a p2 ih =>
    intro dc dl idx er q hf hc
    cases a with
    | downloading i p0 data =>
      have hcd : countDone (TaskResult.downloading i p0 data :: p2) = countDone p2 := by
        simp [countDone, isDone]
      have houtcome : (recvLoop t fs vb ⟨dc, dl⟩
            ((TaskResult.downloading i p0 data :: p2) ++ .failed idx er :: q)).outcome
          = (recvLoop t fs vb ⟨dc, dl + data.length⟩ (p2 ++ .failed idx er :: q)).outcome := by
        simp [recvLoop]
      rw [houtcome]
      exact ih dc (dl + data.length) idx er q
        (fun e he => hf e (List.mem_cons_of_mem _ he)) (by omega)
    | failed i e0 =>
      have hfa := hf _ (List.mem_cons_self _ p2)
      simp [isFailed] at hfa
    | done i =>
      have hcd : countDone (TaskResult.done i :: p2) = countDone p2 + 1 := by
        simp [countDone, isDone]
      have hd : ¬ (dc + 1 = t) := by omega
      have houtcome : (recvLoop t fs vb ⟨dc, dl⟩
            ((TaskResult.done i :: p2) ++ .failed idx er :: q)).outcome
          = (recvLoop t fs vb ⟨dc + 1, dl⟩ (p2 ++ .failed idx er :: q)).outcome := by
        simp [recvLoop, hd]
      rw [houtcome]
      exact ih (dc + 1) dl idx er q
        (fun e he => hf e (List.mem_cons_of_mem _ he)) (by omega)

/-- C3: starting from the initial state, the consumer loop succeeds iff
the event sequence has a failure-free prefix holding exactly `threads`
`Done` events; and on the first `Failed` event — one preceded by no other
failure and by fewer than `threads` `Done` events — the loop returns that
segment error, regardless of how many segments completed. -/
theorem c3_outcome (threads fileSize : Nat) (vb : Bool) (evs : List TaskResult)
    (ht : 1 ≤ threads) :
    ((recvLoop threads fileSize vb ⟨0, 0⟩ evs).outcome = .succeeded ↔
      ∃ p q, evs = p ++ q ∧ countDone p = threads ∧ ∀ e ∈ p, isFailed e = false) ∧
    (∀ p idx er q, evs = p ++ .failed idx er :: q →
      (∀ e ∈ p, isFailed e = false) → countDone p < threads →
      (recvLoop threads fileSize vb ⟨0, 0⟩ evs).outcome = .failed idx er) := by
  constructor
  · have h := recvLoop_succ_iff threads fileSize vb evs 0 0 (by omega)
    simpa using h
  · intro p idx er q hpq hf hc
    rw [hpq]
    exact recvLoop_first_fail threads fileSize vb p 0 0 idx er q hf (by omega)

/-- Witness for `c3_outcome`: one thread, one `Done` event, success. -/
theorem c3_outcome_witness :
    (recvLoop 1 5 false ⟨0, 0⟩ [.done 0]).outcome = .succeeded :=
  ((c3_outcome 1 5 false [.done 0] (by decide)).1).mpr
    ⟨[.done 0], [], rfl, by decide, by decide⟩


/-- Helper: the read loop only ever sends `Downloading` events. -/
lemma readLoop_no_terminal (idx : Nat) (chanFail : Option Nat) :
    ∀ (body : List (List Nat)) (re : Option IOError) (sent pos : Nat),
      ∀ e ∈ (readLoop idx chanFail sent pos body re).1, isTerminal e = false := by
  intro body
  induction body with
  | nil =>
    intro re sent pos e he
    cases re with
    | none => simp [readLoop] at he
    | some e0 => simp [readLoop] at he
  | cons b bs ih =>
    intro re sent pos e he
    by_cases hb : b.length = 0
    · simp [readLoop, hb] at he
    · by_cases hcf : chanFailsAt chanFail sent = true
      · simp [readLoop, hb, hcf] at he
      · simp only [readLoop, if_neg hb, Bool.not_eq_true] at he
        rw [if_neg (by simp [hcf])] at he
        rcases List.mem_cons.mp he with h | h
        · subst h; rfl
        · exact ih re (sent + 1) (pos + b.length) e h

/-- Helper: the inner fetch only ever sends `Downloading` events; the
terminal event is sent by `download_part` alone. -/
lemma download_part_inner_no_terminal (idx pos : Nat) (chanFail : Option Nat)
    (resp : Except String GetResponse) :
    ∀ e ∈ (download_part_inner idx pos chanFail resp).1, isTerminal e = false := by
  intro e he
  cases resp with
  | error e0 => simp [download_part_inner] at he
  | ok r =>
    by_cases hst : r.statusOk = false
    · simp [download_part_inner, hst] at he
    · simp only [download_part_inner, if_neg hst] at he
      exact readLoop_no_terminal idx chanFail r.body r.readErr 0 pos e he

/-- C5: every run of `download_part` emits its chunk events followed by
exactly one terminal event, placed last — `Done` when the inner fetch
returned `Ok`, `Failed` with the inner error otherwise — and nothing
after it; in particular the whole emission holds exactly one terminal
event (no retry, never both). -/
theorem c5_one_terminal (idx pos : Nat) (chanFail : Option Nat)
    (resp : Except String GetResponse) :
    ∃ chunks,
      (download_part idx pos chanFail resp).1 =
        chunks ++ [match (download_part_inner idx pos chanFail resp).2 with
          | .ok _ => TaskResult.done idx
          | .error er => TaskResult.failed idx er] ∧
      (∀ e ∈ chunks, isTerminal e = false) ∧
      (download_part idx pos chanFail resp).1.countP (fun e => isTerminal e) = 1 := by
  refine ⟨(download_part_inner idx pos chanFail resp).1, ?_⟩
  have hnt := download_part_inner_no_terminal idx pos chanFail resp
  have hsplit : (download_part idx pos chanFail resp).1 =
      (download_part_inner idx pos chanFail resp).1 ++
        [match (download_part_inner idx pos chanFail resp).2 with
          | .ok _ => TaskResult.done idx
          | .error er => TaskResult.failed idx er] := by
    unfold download_part
    rcases hin : download_part_inner idx pos chanFail resp with ⟨evs, res⟩
    cases res with
    | ok p => simp
    | error er => simp
  refine ⟨hsplit, hnt, ?_⟩
  rw [hsplit, List.countP_append]
  have h0 : (download_part_inner idx pos chanFail resp).1.countP
      (fun e => isTerminal e) = 0 := by
    rw [List.countP_eq_zero]
    intro a ha
    simp [hnt a ha]
  rw [h0]
  rcases (download_part_inner idx pos chanFail resp).2 with p | er
  · simp [isTerminal]
  · simp [isTerminal]


/-- Helper: on an open channel, a success status and a clean EOF, the read
loop emits exactly the chunk stream of the body and returns the start
position plus the total body length. -/
lemma readLoop_success_eq (idx : Nat) :
    ∀ (body : List (List Nat)) (sent pos : Nat), (∀ b ∈ body, b ≠ []) →
      readLoop idx none sent pos body none =
        (chunkStream idx pos body, .ok (pos + (body.map List.length).sum)) := by
  intro body
  induction body with
  | nil =>
    intro sent pos _
    simp [readLoop, chunkStream]
  | cons b bs ih =>
    intro sent pos hne
    have hb : b ≠ [] := hne b (List.mem_cons_self b bs)
    have hlen : ¬ (b.length = 0) := by simpa using hb
    rw [readLoop, if_neg hlen]
    have hcf : chanFailsAt none sent = false := rfl
    rw [if_neg (by simp [hcf])]
    rw [ih (sent + 1) (pos + b.length) (fun x hx => hne x (List.mem_cons_of_mem _ hx))]
    simp [chunkStream, Nat.add_assoc]

/-- Helper: the `k`-th event of a chunk stream is a `Downloading` event at
the start position plus the length of the first `k` blocks. -/
lemma chunkStream_get? (idx : Nat) :
    ∀ (body : List (List Nat)) (pos k : Nat),
      (chunkStream idx pos body).get? k =
        (body.get? k).map fun b =>
          TaskResult.downloading idx (pos + ((body.take k).map List.length).sum) b := by
  intro body
  induction body with
  | nil =>
    intro pos k
    simp [chunkStream]
  | cons b bs ih =>
    intro pos k
    cases k with
    | zero => simp [chunkStream]
    | succ k2 =>
      simp only [chunkStream, List.get?_cons_succ, List.take_succ_cons, List.map_cons,
        List.sum_cons]
      rw [ih (pos + b.length) k2]
      simp [Nat.add_assoc]

/-- Helper: every event of a chunk stream is a `Downloading` event whose
buffer is one of the body blocks. -/
lemma chunkStream_mem (idx : Nat) :
    ∀ (body : List (List Nat)) (pos : Nat) (e : TaskResult), e ∈ chunkStream idx pos body →
      ∃ p b, b ∈ body ∧ e = .downloading idx p b := by
  intro body
  induction body with
  | nil =>
    intro pos e he
    simp [chunkStream] at he
  | cons b bs ih =>
    intro pos e he
    rcases List.mem_cons.mp he with h | h
    · exact ⟨pos, b, List.mem_cons_self b bs, h⟩
    · rcases ih (pos + b.length) e h with ⟨p, b2, hb2, he2⟩
      exact ⟨p, b2, List.mem_cons_of_mem _ hb2, he2⟩


/-- C6: for a successful segment fetch (success status, open channel,
clean EOF) the `k`-th chunk event carries offset `start + (bytes of the
first k blocks)`, every chunk holds at most `CHUNK_LIMIT = 8192` bytes,
chunk offsets are strictly increasing, and the returned position is
`start + total bytes emitted`. -/
theorem c6_chunk_offsets (idx pos : Nat) (stext : String) (btext : Option String)
    (body : List (List Nat))
    (h8 : ∀ b ∈ body, b.length ≤ CHUNK_LIMIT) (hne : ∀ b ∈ body, b ≠ []) :
    (∀ k, (download_part_inner idx pos none (.ok ⟨true, stext, btext, body, none⟩)).1.get? k =
        (body.get? k).map fun b =>
          TaskResult.downloading idx (pos + ((body.take k).map List.length).sum) b) ∧
    (∀ i p d, TaskResult.downloading i p d ∈
        (download_part_inner idx pos none (.ok ⟨true, stext, btext, body, none⟩)).1 →
        d.length ≤ CHUNK_LIMIT) ∧
    (∀ k i p d i2 p2 d2,
        (download_part_inner idx pos none (.ok ⟨true, stext, btext, body, none⟩)).1.get? k =
          some (.downloading i p d) →
        (download_part_inner idx pos none (.ok ⟨true, stext, btext, body, none⟩)).1.get? (k + 1) =
          some (.downloading i2 p2 d2) →
        p < p2) ∧
    (download_part_inner idx pos none (.ok ⟨true, stext, btext, body, none⟩)).2 =
      .ok (pos + (body.map List.length).sum) := by
  have hunf : download_part_inner idx pos none (.ok ⟨true, stext, btext, body, none⟩) =
      (chunkStream idx pos body, .ok (pos + (body.map List.length).sum)) := by
    unfold download_part_inner
    simp only [if_neg (by simp : ¬ ((true : Bool) = false))]
    exact readLoop_success_eq idx body 0 pos hne
  rw [hunf]
  refine ⟨fun k => chunkStream_get? idx body pos k, ?_, ?_, rfl⟩
  · intro i p d hmem
    rcases chunkStream_mem idx body pos _ hmem with ⟨p2, b2, hb2, heq⟩
    injection heq with h1 h2 h3
    rw [h3]
    exact h8 b2 hb2
  · intro k i p d i2 p2 d2 hk hk1
    rw [chunkStream_get? idx body pos k] at hk
    rw [chunkStream_get? idx body pos (k + 1)] at hk1
    rcases hbk : body.get? k with - | b
    · rw [hbk] at hk
      simp at hk
    · rcases hbk1 : body.get? (k + 1) with - | b2
      · rw [hbk1] at hk1
        simp at hk1
      · rw [hbk] at hk
        rw [hbk1] at hk1
        simp only [Option.map_some', Option.some.injEq, TaskResult.downloading.injEq] at hk hk1
        obtain ⟨ha1, ha2, ha3⟩ := hk
        obtain ⟨hb1, hb2, hb3⟩ := hk1
        have hbk2 : body[k]? = some b := by
          rw [← List.get?_eq_getElem?]
          exact hbk
        have htake : ((body.take (k + 1)).map List.length).sum =
            ((body.take k).map List.length).sum + b.length := by
          rw [List.take_succ, hbk2]
          simp
        have hbne : b ≠ [] := hne b (by
          have := List.get?_mem hbk
          exact this)
        have hblen : 0 < b.length := List.length_pos.mpr hbne
        omega
  

/-- Witness for `c6_chunk_offsets` on a two-block body. -/
theorem c6_chunk_offsets_witness :
    (∀ k, (download_part_inner 0 10 none (.ok ⟨true, "OK", none, [[1, 2], [3]], none⟩)).1.get? k =
        (([[1, 2], [3]] : List (List Nat)).get? k).map fun b =>
          TaskResult.downloading 0 (10 + ((([[1, 2], [3]] : List (List Nat)).take k).map List.length).sum) b) ∧
    (∀ i p d, TaskResult.downloading i p d ∈
        (download_part_inner 0 10 none (.ok ⟨true, "OK", none, [[1, 2], [3]], none⟩)).1 →
        d.length ≤ CHUNK_LIMIT) ∧
    (∀ k i p d i2 p2 d2,
        (download_part_inner 0 10 none (.ok ⟨true, "OK", none, [[1, 2], [3]], none⟩)).1.get? k =
          some (.downloading i p d) →
        (download_part_inner 0 10 none (.ok ⟨true, "OK", none, [[1, 2], [3]], none⟩)).1.get? (k + 1) =
          some (.downloading i2 p2 d2) →
        p < p2) ∧
    (download_part_inner 0 10 none (.ok ⟨true, "OK", none, [[1, 2], [3]], none⟩)).2 =
      .ok 13 :=
  c6_chunk_offsets 0 10 "OK" none [[1, 2], [3]] (by decide) (by decide)

/-- C9: the size probe returns a `ConnectionReset` (transport) error
exactly when the request itself fails, an `InvalidData` (protocol) error
exactly when the status is not a success or the `content-length` header is
missing or unparseable, and otherwise the parsed size. -/
theorem c9_probe_classification (resp : Except String HeadResponse) :
    ((∃ e, get_file_size resp = .error e ∧ e.kind = .connectionReset) ↔
      (∃ s, resp = .error s)) ∧
    ((∃ e, get_file_size resp = .error e ∧ e.kind = .invalidData) ↔
      (∃ r, resp = .ok r ∧
        (r.statusOk = false ∨ r.contentLength.bind parseU64 = none))) ∧
    (∀ r n, resp = .ok r → r.statusOk = true → r.contentLength.bind parseU64 = some n →
      get_file_size resp = .ok n) := by
  rcases resp with s | r
  · have hgf : get_file_size (.error s) = .error ⟨.connectionReset, s⟩ := rfl
    refine ⟨⟨fun _ => ⟨s, rfl⟩, fun _ => ⟨⟨.connectionReset, s⟩, hgf, rfl⟩⟩, ⟨?_, ?_⟩, ?_⟩
    · rintro ⟨e, he, hk⟩
      rw [hgf] at he
      injection he with he
      rw [← he] at hk
      simp at hk
    · rintro ⟨r, hr, -⟩
      simp at hr
    · intro r n hr
      simp at hr
  · cases hst : r.statusOk with
    | false =>
      have hgf : get_file_size (.ok r) =
          .error ⟨.invalidData, "Failed to get content-length: " ++ r.statusText⟩ := by
        simp [get_file_size, hst]
      refine ⟨⟨?_, ?_⟩, ⟨?_, ?_⟩, ?_⟩
      · rintro ⟨e, he, hk⟩
        rw [hgf] at he
        injection he with he
        rw [← he] at hk
        simp at hk
      · rintro ⟨s2, hs2⟩
        simp at hs2
      · intro _
        exact ⟨r, rfl, Or.inl hst⟩
      · intro _
        exact ⟨⟨.invalidData, "Failed to get content-length: " ++ r.statusText⟩, hgf, rfl⟩
      · intro r2 n hr2 hst2 hcl
        injection hr2 with hr2
        rw [← hr2, hst] at hst2
        exact absurd hst2 (by simp)
    | true =>
      rcases hcl : r.contentLength.bind parseU64 with - | n
      · have hgf : get_file_size (.ok r) =
            .error ⟨.invalidData, "Failed to parse content-length"⟩ := by
          simp [get_file_size, hst, hcl]
        refine ⟨⟨?_, ?_⟩, ⟨?_, ?_⟩, ?_⟩
        · rintro ⟨e, he, hk⟩
          rw [hgf] at he
          injection he with he
          rw [← he] at hk
          simp at hk
        · rintro ⟨s2, hs2⟩
          simp at hs2
        · intro _
          exact ⟨r, rfl, Or.inr hcl⟩
        · intro _
          exact ⟨⟨.invalidData, "Failed to parse content-length"⟩, hgf, rfl⟩
        · intro r2 n hr2 hst2 hcl2
          injection hr2 with hr2
          rw [← hr2, hcl] at hcl2
          exact absurd hcl2 (by simp)
      · have hgf : get_file_size (.ok r) = .ok n := by
          simp [get_file_size, hst, hcl]
        refine ⟨⟨?_, ?_⟩, ⟨?_, ?_⟩, ?_⟩
        · rintro ⟨e, he, -⟩
          rw [hgf] at he
          simp at he
        · rintro ⟨s2, hs2⟩
          simp at hs2
        · rintro ⟨e, he, -⟩
          rw [hgf] at he
          simp at he
        · rintro ⟨r2, hr2, hbad⟩
          injection hr2 with hr2
          rcases hbad with hbad | hbad
          · rw [← hr2, hst] at hbad
            exact absurd hbad (by simp)
          · rw [← hr2, hcl] at hbad
            exact absurd hbad (by simp)
        · intro r2 n2 hr2 hst2 hcl2
          injection hr2 with hr2
          rw [← hr2, hcl] at hcl2
          injection hcl2 with hcl2
          rw [hgf, hcl2]

/-- Witness for `c9_probe_classification`: a successful probe with
`content-length: 42` parses to 42. -/
theorem c9_probe_classification_witness :
    get_file_size (.ok ⟨true, "200 OK", some "42"⟩) = .ok 42 :=
  (c9_probe_classification (.ok ⟨true, "200 OK", some "42"⟩)).2.2
    ⟨true, "200 OK", some "42"⟩ 42 rfl rfl (by decide)

end Mget
